import Mathlib

namespace MonitorLatency

/-! Shallow embedding of the repository's single source file
`src/monitor_latency.py`.  Pure code is translated directly; effectful
code (the subprocess probe, the OCI network calls, sleeps and logging)
is modelled by passing the environment's responses in explicitly as
oracle values, and by recording the cloud API calls a function makes in
an explicit trace.  Machine floats are modelled as rationals, and
wall-clock timestamps (the `time` field of a trial record) are not
modelled since no claim mentions them. -/

/-- The regex character class of digits and dots, written as a class of
digits and the dot in both latency patterns on line 39 of the source
(ASCII: real ping output is ASCII). -/
def isDigitDot (c : Char) : Bool := c.isDigit || c == '.'

/-- Python regex whitespace class: space, tab, newline, carriage
return, vertical tab, form feed. -/
def isPySpace (c : Char) : Bool :=
  c == ' ' || c == '\t' || c == '\n' || c == '\r' ||
    c == Char.ofNat 11 || c == Char.ofNat 12

/-- Match the first summary-statistics pattern of line 39 (an equals
sign, optional whitespace, one or more digit-or-dot characters, a
slash, the captured digit-or-dot group, a slash) at the head of the
character list, returning the text of capture group 1.  The character
classes involved are pairwise disjoint and disjoint from the literal
characters that follow them, so greedy maximal munch agrees with the
backtracking semantics of the Python pattern. -/
def matchPat1At (s : List Char) : Option (List Char) :=
  match s with
  | '=' :: rest =>
    let s1 := rest.dropWhile isPySpace
    let d1 := s1.takeWhile isDigitDot
    let s2 := s1.dropWhile isDigitDot
    if d1.isEmpty then none
    else
      match s2 with
      | '/' :: s3 =>
        let d2 := s3.takeWhile isDigitDot
        let s4 := s3.dropWhile isDigitDot
        if d2.isEmpty then none
        else
          match s4 with
          | '/' :: _ => some d2
          | _ => none
      | _ => none
  | _ => none

/-- Match the second (fallback) pattern of line 39 (the literal text
avg, one character that is a slash or an equals sign, optional
whitespace, the captured digit-or-dot group) at the head of the
character list, returning the text of capture group 1. -/
def matchPat2At (s : List Char) : Option (List Char) :=
  match s with
  | 'a' :: 'v' :: 'g' :: c :: rest =>
    if c == '/' || c == '=' then
      let s1 := rest.dropWhile isPySpace
      let d := s1.takeWhile isDigitDot
      if d.isEmpty then none else some d
    else none
  | _ => none

/-- Python re.search: scan start positions left to right and return the
first successful match of the given match-at-head function. -/
def reSearch (f : List Char → Option (List Char)) : List Char → Option (List Char)
  | [] => f []
  | c :: rest =>
    match f (c :: rest) with
    | some r => some r
    | none => reSearch f rest

/-- Decimal digits to a natural number, as Python int parsing of a
digit string. -/
def digitsToNat (s : List Char) : ℕ :=
  s.foldl (fun n c => 10 * n + (c.toNat - 48)) 0

/-- Python float() applied to a nonempty string of digits and dots
(the only strings the capture groups can produce): it succeeds exactly
when the string holds at least one digit and at most one dot, and then
denotes the evident decimal value; on any other digit-dot string
float() raises ValueError, modelled as none. -/
def pyFloatOfDigitsDots (s : List Char) : Option ℚ :=
  if s.any (fun c => c.isDigit) ∧ s.count '.' ≤ 1 then
    match s.splitOn '.' with
    | [ipart] => some (digitsToNat ipart)
    | [ipart, fpart] =>
      some ((digitsToNat ipart : ℚ) + (digitsToNat fpart : ℚ) / ((10 : ℚ) ^ fpart.length))
    | _ => none
  else none

/-- Lines 33-42 of the source: run the ping subprocess, concatenate
stdout, a newline and stderr, search the combined text with the first
pattern, fall back to the second, and convert the capture with
float().  The argument is none when subprocess.run itself raises (the
surrounding try/except then yields None); a float() conversion error
on the captured text is caught by the same handler, also yielding
None.  The embedded function is total: measure_latency never raises. -/
def measure_latency (runResult : Option (String × String)) : Option ℚ :=
  match runResult with
  | none => none
  | some (so, se) =>
    let out := (so ++ "\n" ++ se).data
    match reSearch matchPat1At out with
    | some cap => pyFloatOfDigitsDots cap
    | none =>
      match reSearch matchPat2At out with
      | some cap => pyFloatOfDigitsDots cap
      | none => none

/-! ## The latency-optimization loop (lines 177-220, 250-251) -/

/-- One trial record (lines 187-193).  The wall-clock `time` field is
not modelled. -/
structure Trial where
  ip : String
  avg_ms : Option ℚ
  icmp_ok : Bool
  tcp_ok : Bool
deriving DecidableEq

/-- The loop's mutable state: the switch counter, the address under
test, and the accumulated trial records. -/
structure LoopState where
  switches : ℕ
  pubIp : String
  trials : List Trial
deriving DecidableEq

/-- Outcome of one iteration of the while-loop body: break with
success=true, break on an exhausted budget, or switch the address and
continue with the stated backoff. -/
inductive IterResult where
  | success (st : LoopState)
  | exhausted (st : LoopState)
  | next (backoff : ℕ) (st : LoopState)
deriving DecidableEq

/-- Which transition an iteration took (0 success, 1 exhausted, 2
switch-and-continue), used to state that a quantity cannot influence
the transition itself. -/
def IterResult.tag : IterResult → ℕ
  | IterResult.success _ => 0
  | IterResult.exhausted _ => 1
  | IterResult.next _ _ => 2

/-- The loop state carried by an iteration result. -/
def IterResult.state : IterResult → LoopState
  | IterResult.success s => s
  | IterResult.exhausted s => s
  | IterResult.next _ s => s

/-- A trial record with its tcp_ok field blanked, used to state that a
quantity can influence at most that field. -/
def Trial.dropTcp (tr : Trial) : Trial := ⟨tr.ip, tr.avg_ms, tr.icmp_ok, false⟩

/-- Lines 182-193: the trial record appended by one iteration probing
`ip` whose measurement is `avg`; the TCP fallback probe result `tcp`
is consulted only when the measurement is absent, otherwise
reachable_tcp keeps its initial value False. -/
def mkTrial (ip : String) (avg : Option ℚ) (tcp : Bool) : Trial :=
  ⟨ip, avg, avg.isSome, match avg with | none => tcp | some _ => false⟩

/-- Line 215: the backoff computed after the switch counter has been
incremented to n. -/
def backoffOf (n : ℕ) : ℕ := min 10 (2 + n / 3)

/-- Lines 210-218: the shared tail of the loop body after the success
test — stop when the budget is exhausted, otherwise increment the
counter, compute the backoff and switch to the new address. -/
def budgetStep (m : ℕ) (newIp : String) (s : LoopState) : IterResult :=
  if s.switches ≥ m then IterResult.exhausted s
  else IterResult.next (backoffOf (s.switches + 1)) ⟨s.switches + 1, newIp, s.trials⟩

/-- One iteration of the while-loop body (lines 180-220) for threshold
θ and budget m.  `avg` is the iteration's measured mean latency, `tcp`
the TCP fallback probe's result, and `newIp` the address that
switch_ephemeral_ip would hand back if this iteration switches. -/
def loopIter (θ : ℚ) (m : ℕ) (avg : Option ℚ) (tcp : Bool) (newIp : String)
    (st : LoopState) : IterResult :=
  let st1 : LoopState := ⟨st.switches, st.pubIp, st.trials ++ [mkTrial st.pubIp avg tcp]⟩
  match avg with
  | some v => if v < θ then IterResult.success st1 else budgetStep m newIp st1
  | none => budgetStep m newIp st1

/-- The while-loop of lines 179-220, driven by oracle streams: `a i`
is iteration i's measured mean latency, `t i` its TCP fallback result,
`p i` the address obtained if iteration i switches.  `fuel` bounds the
number of iterations still allowed to run; none means the loop did not
finish within fuel iterations.  The result is the final success flag
(line 178/199) together with the final state. -/
def runLoop (θ : ℚ) (m : ℕ) (a : ℕ → Option ℚ) (t : ℕ → Bool) (p : ℕ → String) :
    ℕ → ℕ → LoopState → Option (Bool × LoopState)
  | 0, _, _ => none
  | fuel + 1, i, st =>
    match loopIter θ m (a i) (t i) (p i) st with
    | IterResult.success st' => some (true, st')
    | IterResult.exhausted st' => some (false, st')
    | IterResult.next _ st' => runLoop θ m a t p fuel (i + 1) st'

/-- Whether an optional measurement is present and strictly below the
threshold — the loop's success test on lines 195-200. -/
def belowB (avg : Option ℚ) (θ : ℚ) : Bool :=
  match avg with
  | some v => decide (v < θ)
  | none => false

/-- The address probed by iteration k: the initial address for k = 0,
afterwards the address produced by switch number k. -/
def ipAt (p : ℕ → String) (ip0 : String) : ℕ → String
  | 0 => ip0
  | k + 1 => p k

/-- The trial record iteration k appends. -/
def trialAt (a : ℕ → Option ℚ) (t : ℕ → Bool) (p : ℕ → String) (ip0 : String)
    (k : ℕ) : Trial :=
  mkTrial (ipAt p ip0 k) (a k) (t k)

/-- The while-loop run from the initial state with fuel m + 1, which
the lemmas below prove is always enough (the loop performs at most
m + 1 iterations); the default value is never used. -/
def runMainLoop (θ : ℚ) (m : ℕ) (a : ℕ → Option ℚ) (t : ℕ → Bool) (p : ℕ → String)
    (ip0 : String) : Bool × LoopState :=
  (runLoop θ m a t p (m + 1) 0 ⟨0, ip0, []⟩).getD (false, ⟨0, ip0, []⟩)

/-! ## Setup (lines 44-49, 71-84) and the whole of main -/

/-- The six environment variables build_config_from_env requires
(line 45). -/
def requiredEnv : List String :=
  [("OCI_CLI_USER"), ("OCI_CLI_TENANCY"), ("OCI_CLI_REGION"),
   ("OCI_CLI_FINGERPRINT"), ("OCI_CLI_KEY_CONTENT"), ("OCI_INSTANCE_ID")]

/-- Lines 45-46: the required variables whose value is falsy (absent
variables are modelled as the empty string, Python's other falsy get
result). -/
def missingEnv (env : String → String) : List String :=
  requiredEnv.filter (fun k => env k = "")

/-- Lines 71-77: each attachment is modelled as its vnic id paired
with the is_primary flag of the fetched vnic.  An empty list is the
sys.exit(2) path, modelled as none. -/
def pick_primary_vnic (vas : List (String × Bool)) : Option String :=
  match vas with
  | [] => none
  | v :: rest => some (((((v :: rest).find? (fun q => q.2)).map (fun q => q.1))).getD v.1)

/-- Lines 79-84: same shape for the private IPs of the chosen vnic. -/
def pick_primary_private_ip (pips : List (String × Bool)) : Option String :=
  match pips with
  | [] => none
  | q :: rest => some (((((q :: rest).find? (fun r => r.2)).map (fun r => r.1))).getD q.1)

/-! ## Public-IP lifecycle manager (lines 86-131) -/

/-- A public-IP object as the OCI SDK returns it; the string-valued
lifetime ("EPHEMERAL" or "RESERVED") and lifecycle_state ("ASSIGNED",
"PROVISIONING", ...) are compared as strings exactly as the source
does. -/
structure PublicIp where
  id : String
  ip_address : String
  lifetime : String
  lifecycle_state : String
deriving DecidableEq

/-- The cloud API calls the lifecycle functions can issue, recorded as
a trace. -/
inductive ApiCall where
  | getByPrivate (privateIpId : String)
  | updateUnbind (publicIpId : String)
  | createPublic (privateIpId : String)
  | getPublic (publicIpId : String)
  | deletePublic (publicIpId : String)
deriving DecidableEq

/-- Calls that mutate cloud state. -/
def isMutatingCall : ApiCall → Bool
  | ApiCall.updateUnbind _ => true
  | ApiCall.createPublic _ => true
  | ApiCall.deletePublic _ => true
  | _ => false

/-- Assignment-poll reads. -/
def isPollCall : ApiCall → Bool
  | ApiCall.getPublic _ => true
  | _ => false

/-- Lines 93-98, wait_assigned: up to `n` polls (each a sleep followed
by a get_public_ip read) starting at observation index k, returning on
the first observed object whose lifecycle_state is ASSIGNED; when the
polls are exhausted, one final read is performed and returned in
whatever state it is.  `polls j` is the j-th get_public_ip response.
The second component is the trace of reads performed. -/
def waitLoop (polls : ℕ → PublicIp) (pubId : String) : ℕ → ℕ → PublicIp × List ApiCall
  | 0, k => (polls k, [ApiCall.getPublic pubId])
  | n + 1, k =>
    let obj := polls k
    if obj.lifecycle_state = "ASSIGNED" then (obj, [ApiCall.getPublic pubId])
    else
      let r := waitLoop polls pubId n (k + 1)
      (r.1, ApiCall.getPublic pubId :: r.2)

/-- wait_assigned with its attempt bound (tries, default 20 at both
call sites). -/
def wait_assigned (polls : ℕ → PublicIp) (pubId : String) (tries : ℕ) :
    PublicIp × List ApiCall :=
  waitLoop polls pubId tries 0

/-- The network responses ensure_ephemeral_attached consumes:
byPrivate is get_public_ip_by_private_ip_id's answer (none both when
no binding exists and when that call raises ServiceError, line 90),
created is create_public_ip's returned object, and polls the stream of
get_public_ip reads. -/
structure NetOracle where
  byPrivate : Option PublicIp
  created : PublicIp
  polls : ℕ → PublicIp

/-- Lines 108-112: the common tail creating a fresh EPHEMERAL binding
and polling it. -/
def createAndWait (o : NetOracle) (privateIpId : String) : PublicIp × List ApiCall :=
  let w := wait_assigned o.polls o.created.id 20
  (w.1, ApiCall.createPublic privateIpId :: w.2)

/-- Lines 100-112, ensure_ephemeral_attached: look up the current
binding; if it exists and is EPHEMERAL return it unchanged; if it
exists and is RESERVED unbind it (update with private_ip_id=None) and
fall through; then create a fresh EPHEMERAL binding and poll it. -/
def ensure_ephemeral_attached (o : NetOracle) (privateIpId : String) :
    PublicIp × List ApiCall :=
  match o.byPrivate with
  | some obj =>
    if obj.lifetime = "EPHEMERAL" then (obj, [ApiCall.getByPrivate privateIpId])
    else if obj.lifetime = "RESERVED" then
      let w := createAndWait o privateIpId
      (w.1, ApiCall.getByPrivate privateIpId :: ApiCall.updateUnbind obj.id :: w.2)
    else
      let w := createAndWait o privateIpId
      (w.1, ApiCall.getByPrivate privateIpId :: w.2)
  | none =>
    let w := createAndWait o privateIpId
    (w.1, ApiCall.getByPrivate privateIpId :: w.2)

/-- The network responses switch_ephemeral_ip consumes.  cleanupError
says whether the delete/unbind call raises oci ServiceError; its catch
clause on lines 123-124 logs and continues, so the flag has no effect
on the rest of the function.  createResult is create_public_ip's
outcome — an error there is NOT caught and propagates (Except.error). -/
structure SwitchOracle where
  cleanupError : Bool
  createResult : Except Unit PublicIp
  polls : ℕ → PublicIp

/-- Lines 114-131, switch_ephemeral_ip: delete the old binding when it
is EPHEMERAL, unbind it when it is RESERVED (a ServiceError from
either is caught, logged and swallowed — the trace still records the
attempted call); then sleep the backoff and create a fresh EPHEMERAL
binding and poll it.  A create error propagates to the caller. -/
def switch_ephemeral_ip (o : SwitchOracle) (privateIpId : String)
    (old_obj : Option PublicIp) (backoff_s : ℕ) : Except Unit PublicIp × List ApiCall :=
  let cleanupCalls : List ApiCall :=
    match old_obj with
    | some old =>
      if old.lifetime = "EPHEMERAL" then [ApiCall.deletePublic old.id]
      else if old.lifetime = "RESERVED" then [ApiCall.updateUnbind old.id]
      else []
    | none => []
  match o.createResult with
  | Except.error e => (Except.error e, cleanupCalls ++ [ApiCall.createPublic privateIpId])
  | Except.ok new_obj =>
    let w := wait_assigned o.polls new_obj.id 20
    (Except.ok w.1, cleanupCalls ++ ApiCall.createPublic privateIpId :: w.2)

/-! ## main (lines 150-251) -/

/-- main, up to its exit code and the trial list it accumulates: check
the required environment variables (exit 2), pick the primary vnic
(exit 2 when no attachment exists) and primary private IP (exit 2 when
none exists), ensure an ephemeral binding, run the loop, and exit 0 on
success, 1 otherwise (line 251).  The probe results and the addresses
produced by the switches are the oracle streams a, t and p; all three
exit-2 paths abort before any probing, so their trial list is empty. -/
def mainRun (env : String → String) (vas pips : List (String × Bool)) (o : NetOracle)
    (θ : ℚ) (m : ℕ) (a : ℕ → Option ℚ) (t : ℕ → Bool) (p : ℕ → String) :
    ℕ × List Trial :=
  if missingEnv env ≠ [] then (2, [])
  else
    match pick_primary_vnic vas with
    | none => (2, [])
    | some _ =>
      match pick_primary_private_ip pips with
      | none => (2, [])
      | some pid =>
        let pub0 := (ensure_ephemeral_attached o pid).1
        let r := runMainLoop θ m a t p pub0.ip_address
        (if r.1 then 0 else 1, r.2.trials)

/-! ## Concrete values used by the evaluation witnesses -/

/-- A bound EPHEMERAL public IP in its final state. -/
def pubE : PublicIp := ⟨("pub-eph"), ("203.0.113.9"), ("EPHEMERAL"), ("ASSIGNED")⟩

/-- A RESERVED public IP, assumed externally owned. -/
def pubR : PublicIp := ⟨("pub-res"), ("198.51.100.2"), ("RESERVED"), ("ASSIGNED")⟩

/-- A freshly created EPHEMERAL public IP that has become ASSIGNED. -/
def pubN : PublicIp := ⟨("pub-new"), ("203.0.113.77"), ("EPHEMERAL"), ("ASSIGNED")⟩

/-- The same public IP while still PROVISIONING. -/
def pubP : PublicIp := ⟨("pub-new"), ("203.0.113.77"), ("EPHEMERAL"), ("PROVISIONING")⟩

/-- A network oracle with no pre-existing binding whose create succeeds
immediately. -/
def netFix : NetOracle := ⟨none, pubN, fun _ => pubN⟩

/-! ## Helper lemmas about one loop iteration -/

lemma belowB_iff (avg : Option ℚ) (θ : ℚ) :
    belowB avg θ = true ↔ ∃ v, avg = some v ∧ v < θ := by
  cases avg <;> simp [belowB]

lemma budgetStep_ne_success (m : ℕ) (ip : String) (s st' : LoopState) :
    budgetStep m ip s ≠ IterResult.success st' := by
  unfold budgetStep
  split <;> simp

lemma budgetStep_exhausted_iff (m : ℕ) (ip : String) (s st' : LoopState) :
    budgetStep m ip s = IterResult.exhausted st' ↔ m ≤ s.switches ∧ st' = s := by
  unfold budgetStep
  split <;> rename_i h <;> simp [eq_comm] <;> omega

lemma budgetStep_next_iff (m : ℕ) (ip : String) (s st' : LoopState) (b : ℕ) :
    budgetStep m ip s = IterResult.next b st' ↔
      s.switches < m ∧ b = backoffOf (s.switches + 1) ∧
        st' = ⟨s.switches + 1, ip, s.trials⟩ := by
  unfold budgetStep
  split <;> rename_i h <;> simp [eq_comm] <;> omega

lemma loopIter_success_iff (θ : ℚ) (m : ℕ) (avg : Option ℚ) (tcp : Bool) (ip : String)
    (st st' : LoopState) :
    loopIter θ m avg tcp ip st = IterResult.success st' ↔
      belowB avg θ = true ∧
        st' = ⟨st.switches, st.pubIp, st.trials ++ [mkTrial st.pubIp avg tcp]⟩ := by
  cases avg with
  | none =>
    simp only [loopIter, belowB, Bool.false_eq_true, false_and, iff_false]
    exact budgetStep_ne_success _ _ _ _
  | some v =>
    simp only [loopIter, belowB, decide_eq_true_eq]
    by_cases hv : v < θ
    · simp [if_pos hv, hv, eq_comm]
    · simp only [if_neg hv, hv, false_and, iff_false]
      exact budgetStep_ne_success _ _ _ _

lemma loopIter_exhausted_iff (θ : ℚ) (m : ℕ) (avg : Option ℚ) (tcp : Bool) (ip : String)
    (st st' : LoopState) :
    loopIter θ m avg tcp ip st = IterResult.exhausted st' ↔
      belowB avg θ = false ∧ m ≤ st.switches ∧
        st' = ⟨st.switches, st.pubIp, st.trials ++ [mkTrial st.pubIp avg tcp]⟩ := by
  cases avg with
  | none =>
    simpa only [loopIter, belowB, true_and] using
      budgetStep_exhausted_iff m ip ⟨st.switches, st.pubIp, _⟩ st'
  | some v =>
    simp only [loopIter, belowB, decide_eq_false_iff_not]
    by_cases hv : v < θ
    · simp [if_pos hv, hv]
    · simpa only [if_neg hv, hv, not_false_iff, true_and] using
        budgetStep_exhausted_iff m ip ⟨st.switches, st.pubIp, _⟩ st'

lemma loopIter_next_iff (θ : ℚ) (m : ℕ) (avg : Option ℚ) (tcp : Bool) (ip : String)
    (st st' : LoopState) (b : ℕ) :
    loopIter θ m avg tcp ip st = IterResult.next b st' ↔
      belowB avg θ = false ∧ st.switches < m ∧ b = backoffOf (st.switches + 1) ∧
        st' = ⟨st.switches + 1, ip, st.trials ++ [mkTrial st.pubIp avg tcp]⟩ := by
  cases avg with
  | none =>
    simpa only [loopIter, belowB, true_and] using
      budgetStep_next_iff m ip ⟨st.switches, st.pubIp, _⟩ st' b
  | some v =>
    simp only [loopIter, belowB, decide_eq_false_iff_not]
    by_cases hv : v < θ
    · simp [if_pos hv, hv]
    · simpa only [if_neg hv, hv, not_false_iff, true_and] using
        budgetStep_next_iff m ip ⟨st.switches, st.pubIp, _⟩ st' b

/-! ## Helper lemmas about the whole loop -/

lemma runLoop_isSome (θ : ℚ) (m : ℕ) (a : ℕ → Option ℚ) (t : ℕ → Bool) (p : ℕ → String) :
    ∀ fuel i st, st.switches ≤ m → m + 1 ≤ st.switches + fuel →
      (runLoop θ m a t p fuel i st).isSome := by
  intro fuel
  induction fuel with
  | zero => intro i st h1 h2; omega
  | succ fuel ih =>
    intro i st h1 h2
    rcases hc : loopIter θ m (a i) (t i) (p i) st with st1 | st1 | ⟨b1, st1⟩ <;>
      simp only [runLoop, hc]
    · simp
    · simp
    · rcases (loopIter_next_iff θ m (a i) (t i) (p i) st st1 b1).mp hc with ⟨_, hlt, _, hst⟩
      subst hst
      exact ih (i + 1) _ (by simpa using hlt) (by simp; omega)

lemma runLoop_mono (θ : ℚ) (m : ℕ) (a : ℕ → Option ℚ) (t : ℕ → Bool) (p : ℕ → String) :
    ∀ fuel fuel' i st r, runLoop θ m a t p fuel i st = some r → fuel ≤ fuel' →
      runLoop θ m a t p fuel' i st = some r := by
  intro fuel
  induction fuel with
  | zero => intro fuel' i st r h _; simp [runLoop] at h
  | succ fuel ih =>
    intro fuel' i st r h hle
    rcases fuel' with _ | fuel''
    · omega
    · rcases hc : loopIter θ m (a i) (t i) (p i) st with st1 | st1 | ⟨b1, st1⟩ <;>
        simp only [runLoop, hc] at h ⊢
      · exact h
      · exact h
      · exact ih fuel'' (i + 1) st1 r h (by omega)

lemma runLoop_exhaust (θ : ℚ) (m : ℕ) (a : ℕ → Option ℚ) (t : ℕ → Bool) (p : ℕ → String)
    (hns : ∀ j, j ≤ m → belowB (a j) θ = false) :
    ∀ fuel i st, st.switches = i → i ≤ m → m + 1 ≤ i + fuel →
      ∃ st', runLoop θ m a t p fuel i st = some (false, st') ∧
        st'.switches = m ∧ st'.trials.length = st.trials.length + (m - i) + 1 := by
  intro fuel
  induction fuel with
  | zero => intro i st _ h2 h3; omega
  | succ fuel ih =>
    intro i st hsw hi hfuel
    rcases hc : loopIter θ m (a i) (t i) (p i) st with st1 | st1 | ⟨b1, st1⟩
    · exfalso
      rcases (loopIter_success_iff θ m (a i) (t i) (p i) st st1).mp hc with ⟨hb, _⟩
      rw [hns i hi] at hb
      exact Bool.false_ne_true hb
    · rcases (loopIter_exhausted_iff θ m (a i) (t i) (p i) st st1).mp hc with ⟨_, hge, hst⟩
      refine ⟨st1, by simp only [runLoop, hc], ?_, ?_⟩
      · subst hst; simp only; omega
      · subst hst; simp only [List.length_append, List.length_singleton]; omega
    · rcases (loopIter_next_iff θ m (a i) (t i) (p i) st st1 b1).mp hc with ⟨_, hlt, _, hst⟩
      obtain ⟨st', hrun, hswf, hlen⟩ :=
        ih (i + 1) st1 (by subst hst; simp [hsw]) (by omega) (by omega)
      refine ⟨st', ?_, hswf, ?_⟩
      · simp only [runLoop, hc]; exact hrun
      · rw [hlen]; subst hst
        simp only [List.length_append, List.length_singleton]; omega

lemma runLoop_success_iff_below (θ : ℚ) (m : ℕ) (a : ℕ → Option ℚ) (t : ℕ → Bool)
    (p : ℕ → String) :
    ∀ fuel i st b st', runLoop θ m a t p fuel i st = some (b, st') →
      (∀ tr ∈ st.trials, belowB tr.avg_ms θ = false) →
      (b = true ↔ ∃ tr ∈ st'.trials, belowB tr.avg_ms θ = true) := by
  intro fuel
  induction fuel with
  | zero => intro i st b st' h _; simp [runLoop] at h
  | succ fuel ih =>
    intro i st b st' h hpre
    rcases hc : loopIter θ m (a i) (t i) (p i) st with st1 | st1 | ⟨b1, st1⟩ <;>
      simp only [runLoop, hc] at h
    · rcases (loopIter_success_iff θ m (a i) (t i) (p i) st st1).mp hc with ⟨hb, hst⟩
      simp only [Option.some.injEq, Prod.mk.injEq] at h
      obtain ⟨hb', hst'⟩ := h
      subst hb'; subst hst'
      simp only [true_iff]
      refine ⟨mkTrial st.pubIp (a i) (t i), ?_, hb⟩
      rw [hst]
      simp
    · rcases (loopIter_exhausted_iff θ m (a i) (t i) (p i) st st1).mp hc with ⟨hb, _, hst⟩
      simp only [Option.some.injEq, Prod.mk.injEq] at h
      obtain ⟨hb', hst'⟩ := h
      subst hb'; subst hst'
      simp only [Bool.false_eq_true, false_iff]
      rintro ⟨tr, htr, hbel⟩
      rw [hst] at htr
      simp only [List.mem_append, List.mem_singleton] at htr
      rcases htr with htr | rfl
      · rw [hpre tr htr] at hbel; exact Bool.false_ne_true hbel
      · have : (mkTrial st.pubIp (a i) (t i)).avg_ms = a i := rfl
        rw [this] at hbel
        rw [hb] at hbel
        exact Bool.false_ne_true hbel
    · rcases (loopIter_next_iff θ m (a i) (t i) (p i) st st1 b1).mp hc with ⟨hb, _, _, hst⟩
      refine ih (i + 1) st1 b st' h ?_
      intro tr htr
      rw [hst] at htr
      simp only [List.mem_append, List.mem_singleton] at htr
      rcases htr with htr | rfl
      · exact hpre tr htr
      · have : (mkTrial st.pubIp (a i) (t i)).avg_ms = a i := rfl
        rw [this]; exact hb

lemma runLoop_shape (θ : ℚ) (m : ℕ) (a : ℕ → Option ℚ) (t : ℕ → Bool) (p : ℕ → String)
    (ip0 : String) :
    ∀ fuel i st b st', runLoop θ m a t p fuel i st = some (b, st') →
      st.switches = i → st.pubIp = ipAt p ip0 i →
      st.trials = (List.range i).map (trialAt a t p ip0) →
      st'.trials = (List.range (st'.switches + 1)).map (trialAt a t p ip0) := by
  intro fuel
  induction fuel with
  | zero => intro i st b st' h _ _ _; simp [runLoop] at h
  | succ fuel ih =>
    intro i st b st' h hsw hip htr
    have htrial : mkTrial st.pubIp (a i) (t i) = trialAt a t p ip0 i := by
      rw [trialAt, hip]
    rcases hc : loopIter θ m (a i) (t i) (p i) st with st1 | st1 | ⟨b1, st1⟩ <;>
      simp only [runLoop, hc] at h
    · rcases (loopIter_success_iff θ m (a i) (t i) (p i) st st1).mp hc with ⟨_, hst⟩
      simp only [Option.some.injEq, Prod.mk.injEq] at h
      obtain ⟨_, hst'⟩ := h
      subst hst'
      rw [hst]
      simp only [hsw, htr, htrial, List.range_succ, List.map_append, List.map_cons,
        List.map_nil]
    · rcases (loopIter_exhausted_iff θ m (a i) (t i) (p i) st st1).mp hc with ⟨_, _, hst⟩
      simp only [Option.some.injEq, Prod.mk.injEq] at h
      obtain ⟨_, hst'⟩ := h
      subst hst'
      rw [hst]
      simp only [hsw, htr, htrial, List.range_succ, List.map_append, List.map_cons,
        List.map_nil]
    · rcases (loopIter_next_iff θ m (a i) (t i) (p i) st st1 b1).mp hc with ⟨_, _, _, hst⟩
      refine ih (i + 1) st1 b st' h ?_ ?_ ?_
      · rw [hst, hsw]
      · rw [hst]; rfl
      · rw [hst]
        simp only [htr, htrial, List.range_succ, List.map_append, List.map_cons,
          List.map_nil, hsw]

/-! ## Helper lemmas about the assignment poll and the lifecycle traces -/

lemma waitLoop_trace_get (polls : ℕ → PublicIp) (pubId : String) :
    ∀ n k c, c ∈ (waitLoop polls pubId n k).2 → c = ApiCall.getPublic pubId := by
  intro n
  induction n with
  | zero => intro k c hc; simpa [waitLoop] using hc
  | succ n ih =>
    intro k c hc
    by_cases h : (polls k).lifecycle_state = "ASSIGNED"
    · simpa [waitLoop, h] using hc
    · simp only [waitLoop, if_neg h, List.mem_cons] at hc
      rcases hc with rfl | hc
      · rfl
      · exact ih (k + 1) c hc

lemma waitLoop_len (polls : ℕ → PublicIp) (pubId : String) :
    ∀ n k, (waitLoop polls pubId n k).2.length ≤ n + 1 := by
  intro n
  induction n with
  | zero => intro k; simp [waitLoop]
  | succ n ih =>
    intro k
    by_cases h : (polls k).lifecycle_state = "ASSIGNED"
    · simp [waitLoop, h]
    · simp only [waitLoop, if_neg h, List.length_cons]
      have := ih (k + 1)
      omega

lemma waitLoop_get_mem (polls : ℕ → PublicIp) (pubId : String) :
    ∀ n k, ApiCall.getPublic pubId ∈ (waitLoop polls pubId n k).2 := by
  intro n
  cases n with
  | zero => intro k; simp [waitLoop]
  | succ n =>
    intro k
    by_cases h : (polls k).lifecycle_state = "ASSIGNED" <;> simp [waitLoop, h]

lemma waitLoop_find (polls : ℕ → PublicIp) (pubId : String) :
    ∀ n k i, i < n → (∀ j, j < i → (polls (k + j)).lifecycle_state ≠ "ASSIGNED") →
      (polls (k + i)).lifecycle_state = "ASSIGNED" →
      (waitLoop polls pubId n k).1 = polls (k + i) := by
  intro n
  induction n with
  | zero => intro k i hi; omega
  | succ n ih =>
    intro k i hi hmin hA
    rcases i with _ | i'
    · rw [Nat.add_zero] at hA
      simp [waitLoop, hA]
    · have h0 : (polls k).lifecycle_state ≠ "ASSIGNED" := by
        simpa using hmin 0 (by omega)
      simp only [waitLoop, if_neg h0]
      have hrec := ih (k + 1) i' (by omega)
        (fun j hj => by
          rw [show k + 1 + j = k + (j + 1) by omega]
          exact hmin (j + 1) (by omega))
        (by rw [show k + 1 + i' = k + (i' + 1) by omega]; exact hA)
      rw [show k + (i' + 1) = k + 1 + i' by omega]
      exact hrec

lemma waitLoop_exhaust (polls : ℕ → PublicIp) (pubId : String) :
    ∀ n k, (∀ j, j < n → (polls (k + j)).lifecycle_state ≠ "ASSIGNED") →
      (waitLoop polls pubId n k).1 = polls (k + n) := by
  intro n
  induction n with
  | zero => intro k _; simp [waitLoop]
  | succ n ih =>
    intro k h
    have h0 : (polls k).lifecycle_state ≠ "ASSIGNED" := by
      simpa using h 0 (by omega)
    simp only [waitLoop, if_neg h0]
    have hrec := ih (k + 1) (fun j hj => by
      rw [show k + 1 + j = k + (j + 1) by omega]
      exact h (j + 1) (by omega))
    rw [show k + (n + 1) = k + 1 + n by omega]
    exact hrec

lemma createAndWait_no_delete (o : NetOracle) (pid : String) :
    ∀ x, ApiCall.deletePublic x ∉ (createAndWait o pid).2 := by
  intro x hx
  simp only [createAndWait, wait_assigned, List.mem_cons] at hx
  rcases hx with h | h
  · exact ApiCall.noConfusion h
  · exact ApiCall.noConfusion (waitLoop_trace_get o.polls o.created.id 20 0 _ h)

lemma ensure_no_delete (o : NetOracle) (pid : String) :
    ∀ x, ApiCall.deletePublic x ∉ (ensure_ephemeral_attached o pid).2 := by
  intro x hx
  rcases hob : o.byPrivate with _ | obj
  · rw [ensure_ephemeral_attached, hob] at hx
    simp only [List.mem_cons] at hx
    rcases hx with h | h
    · exact ApiCall.noConfusion h
    · exact createAndWait_no_delete o pid x h
  · rw [ensure_ephemeral_attached, hob] at hx
    by_cases hE : obj.lifetime = "EPHEMERAL"
    · simp only [if_pos hE, List.mem_singleton] at hx
      exact ApiCall.noConfusion hx
    · by_cases hR : obj.lifetime = "RESERVED"
      · simp only [if_neg hE, if_pos hR, List.mem_cons] at hx
        rcases hx with h | h | h
        · exact ApiCall.noConfusion h
        · exact ApiCall.noConfusion h
        · exact createAndWait_no_delete o pid x h
      · simp only [if_neg hE, if_neg hR, List.mem_cons] at hx
        rcases hx with h | h
        · exact ApiCall.noConfusion h
        · exact createAndWait_no_delete o pid x h

lemma switch_trace (so : SwitchOracle) (pid : String) (old : Option PublicIp) (b : ℕ) :
    (switch_ephemeral_ip so pid old b).2 =
      (match old with
       | some old' =>
         if old'.lifetime = "EPHEMERAL" then [ApiCall.deletePublic old'.id]
         else if old'.lifetime = "RESERVED" then [ApiCall.updateUnbind old'.id]
         else []
       | none => []) ++
      ApiCall.createPublic pid ::
        (match so.createResult with
         | Except.error _ => []
         | Except.ok new_obj => (wait_assigned so.polls new_obj.id 20).2) := by
  rw [switch_ephemeral_ip.eq_def]
  rcases so.createResult with e | n <;> simp

lemma switch_ok (so : SwitchOracle) (pid : String) (old : Option PublicIp) (b : ℕ)
    (n : PublicIp) (hcr : so.createResult = Except.ok n) :
    switch_ephemeral_ip so pid old b =
      (Except.ok (wait_assigned so.polls n.id 20).1,
        (match old with
         | some old' =>
           if old'.lifetime = "EPHEMERAL" then [ApiCall.deletePublic old'.id]
           else if old'.lifetime = "RESERVED" then [ApiCall.updateUnbind old'.id]
           else []
         | none => []) ++
        ApiCall.createPublic pid :: (wait_assigned so.polls n.id 20).2) := by
  rw [switch_ephemeral_ip.eq_def, hcr]

lemma switch_delete_mem (so : SwitchOracle) (pid : String) (old : Option PublicIp)
    (b : ℕ) :
    ∀ x, ApiCall.deletePublic x ∈ (switch_ephemeral_ip so pid old b).2 →
      ∃ oldObj, old = some oldObj ∧ oldObj.lifetime = "EPHEMERAL" ∧ x = oldObj.id := by
  intro x hx
  rw [switch_trace] at hx
  simp only [List.mem_append, List.mem_cons] at hx
  rcases hx with hx | hx | hx
  · rcases old with _ | oldObj
    · simp at hx
    · by_cases hE : oldObj.lifetime = "EPHEMERAL"
      · simp only [if_pos hE, List.mem_singleton] at hx
        exact ⟨oldObj, rfl, hE, by injection hx⟩
      · by_cases hR : oldObj.lifetime = "RESERVED"
        · simp only [if_neg hE, if_pos hR, List.mem_singleton] at hx
          exact ApiCall.noConfusion hx
        · simp only [if_neg hE, if_neg hR] at hx
          simp at hx
  · exact ApiCall.noConfusion hx
  · rcases hcre : so.createResult with e | n <;> rw [hcre] at hx
    · simp at hx
    · exact ApiCall.noConfusion (waitLoop_trace_get so.polls n.id 20 0 _ hx)

lemma switch_reserved_unbind (so : SwitchOracle) (pid : String) (oldObj : PublicIp)
    (b : ℕ) (hR : oldObj.lifetime = "RESERVED") :
    ApiCall.updateUnbind oldObj.id ∈ (switch_ephemeral_ip so pid (some oldObj) b).2 := by
  have hE : ¬ oldObj.lifetime = "EPHEMERAL" := by rw [hR]; decide
  rw [switch_trace]
  simp [if_neg hE, if_pos hR]

/-- Reduce mainRun on the good-setup path: the private-IP pick
succeeds, the loop terminates within m + 1 iterations, and the exit
code is 0 or 1 according to the loop's success flag. -/
lemma mainRun_good (env : String → String) (vas pips : List (String × Bool)) (o : NetOracle)
    (θ : ℚ) (m : ℕ) (a : ℕ → Option ℚ) (t : ℕ → Bool) (p : ℕ → String)
    (henv : missingEnv env = []) (hv : vas ≠ []) (hp : pips ≠ []) :
    ∃ pid b st, pick_primary_private_ip pips = some pid ∧
      runLoop θ m a t p (m + 1) 0
        ⟨0, (ensure_ephemeral_attached o pid).1.ip_address, []⟩ = some (b, st) ∧
      mainRun env vas pips o θ m a t p = (if b then 0 else 1, st.trials) := by
  rcases vas with _ | ⟨v, vrest⟩
  · exact absurd rfl hv
  rcases pips with _ | ⟨q, qrest⟩
  · exact absurd rfl hp
  obtain ⟨⟨b, st⟩, hr⟩ := Option.isSome_iff_exists.mp
    (runLoop_isSome θ m a t p (m + 1) 0
      ⟨0, (ensure_ephemeral_attached o
        (((((q :: qrest).find? (fun r => r.2)).map (fun r => r.1))).getD q.1)).1.ip_address, []⟩
      (by simp) (by simp))
  refine ⟨_, b, st, rfl, hr, ?_⟩
  simp only [mainRun, henv, ne_eq, not_true_eq_false, if_false,
    pick_primary_vnic, pick_primary_private_ip, runMainLoop, hr, Option.getD_some]

/-! ## The claims -/

/-- Claim C1: a loop iteration transitions to SUCCESS (breaking with
success=true) iff the measured mean latency is present and strictly
below the threshold; a measurement exactly equal to the threshold is
not a success; an absent measurement is never a success regardless of
the TCP fallback probe's result, which can influence at most the
tcp_ok field of the recorded trial — never the transition taken, the
switch counter or the address. -/
theorem C1_success_transition (θ : ℚ) (m : ℕ) (avg : Option ℚ) (tcp tcp' : Bool)
    (ip : String) (st : LoopState) :
    ((∃ st', loopIter θ m avg tcp ip st = IterResult.success st') ↔
      ∃ v, avg = some v ∧ v < θ) ∧
    (¬ ∃ st', loopIter θ m (some θ) tcp ip st = IterResult.success st') ∧
    (loopIter θ m avg tcp ip st).tag = (loopIter θ m avg tcp' ip st).tag ∧
    (loopIter θ m avg tcp ip st).state.switches =
      (loopIter θ m avg tcp' ip st).state.switches ∧
    (loopIter θ m avg tcp ip st).state.pubIp =
      (loopIter θ m avg tcp' ip st).state.pubIp ∧
    (loopIter θ m avg tcp ip st).state.trials.map Trial.dropTcp =
      (loopIter θ m avg tcp' ip st).state.trials.map Trial.dropTcp := by
  have hsucc : ∀ tc : Bool,
      (∃ st', loopIter θ m avg tc ip st = IterResult.success st') ↔
        ∃ v, avg = some v ∧ v < θ := by
    intro tc
    constructor
    · rintro ⟨st', h⟩
      exact (belowB_iff avg θ).mp ((loopIter_success_iff θ m avg tc ip st st').mp h).1
    · intro hv
      exact ⟨_, (loopIter_success_iff θ m avg tc ip st _).mpr
        ⟨(belowB_iff avg θ).mpr hv, rfl⟩⟩
  refine ⟨hsucc tcp, ?_, ?_, ?_, ?_, ?_⟩
  · rintro ⟨st', h⟩
    obtain ⟨v, hv, hlt⟩ := (belowB_iff _ θ).mp
      ((loopIter_success_iff θ m (some θ) tcp ip st st').mp h).1
    cases hv
    exact lt_irrefl _ hlt
  · cases avg with
    | some v => rfl
    | none =>
      simp only [loopIter, budgetStep]
      split_ifs <;> rfl
  · cases avg with
    | some v => rfl
    | none =>
      simp only [loopIter, budgetStep]
      split_ifs <;> rfl
  · cases avg with
    | some v => rfl
    | none =>
      simp only [loopIter, budgetStep]
      split_ifs <;> rfl
  · cases avg with
    | some v => rfl
    | none =>
      simp only [loopIter, budgetStep]
      split_ifs <;> simp [IterResult.state, Trial.dropTcp, mkTrial]

/-- Claim C6: the backoff handed to switch number n (the value of the
switch counter after its increment) is min(10, 2 + n / 3) — cap 10,
base 2, step 3 — and as a function of n it is monotonically
non-decreasing and never exceeds the cap. -/
theorem C6_backoff (θ : ℚ) (m : ℕ) (avg : Option ℚ) (tcp : Bool) (ip : String)
    (st : LoopState) :
    (∀ b st', loopIter θ m avg tcp ip st = IterResult.next b st' →
      b = min 10 (2 + st'.switches / 3) ∧ st'.switches = st.switches + 1) ∧
    (∀ n n', n ≤ n' → backoffOf n ≤ backoffOf n') ∧
    (∀ n, backoffOf n ≤ 10) ∧
    (∀ n, backoffOf n = min 10 (2 + n / 3)) := by
  refine ⟨?_, ?_, ?_, fun n => rfl⟩
  · intro b st' h
    obtain ⟨_, _, hb, hst⟩ := (loopIter_next_iff θ m avg tcp ip st st' b).mp h
    subst hst
    exact ⟨by rw [hb]; rfl, rfl⟩
  · intro n n' h
    unfold backoffOf
    have := Nat.div_le_div_right (c := 3) h
    omega
  · intro n
    unfold backoffOf
    omega

/-- Claim C6, evaluation witness: switching with the counter at 0 and
an out-of-threshold measurement yields backoff 2 = min(10, 2 + 1 / 3),
and the backoff values are monotone, e.g. from switch 1 to switch 5. -/
theorem C6_backoff_witness :
    (2 : ℕ) = min 10 (2 + (⟨1, ("ipN"), [⟨("ip0"), some 100, true, false⟩]⟩ :
        LoopState).switches / 3) ∧
    backoffOf 1 ≤ backoffOf 5 :=
  ⟨((C6_backoff 80 12 (some 100) false ("ipN") ⟨0, ("ip0"), []⟩).1 2
      ⟨1, ("ipN"), [⟨("ip0"), some 100, true, false⟩]⟩ (by decide)).1,
    (C6_backoff 80 12 (some 100) false ("ipN") ⟨0, ("ip0"), []⟩).2.1 1 5 (by decide)⟩

/-- Claim C10: every trial record the loop appends satisfies icmp_ok =
(avg_ms present), and tcp_ok can be true only when avg_ms is absent;
moreover the final trial list holds exactly one record per iteration,
in iteration order (record k holds iteration k's address, measurement
and TCP fallback result). -/
theorem C10_trial_invariants (θ : ℚ) (m : ℕ) (a : ℕ → Option ℚ) (t : ℕ → Bool)
    (p : ℕ → String) (ip0 : String) (b : Bool) (st : LoopState)
    (h : runLoop θ m a t p (m + 1) 0 ⟨0, ip0, []⟩ = some (b, st)) :
    (∀ tr ∈ st.trials, tr.icmp_ok = tr.avg_ms.isSome ∧
      (tr.tcp_ok = true → tr.avg_ms = none)) ∧
    st.trials = (List.range st.trials.length).map (trialAt a t p ip0) := by
  have hshape := runLoop_shape θ m a t p ip0 (m + 1) 0 _ b st h rfl rfl (by simp)
  have hlen : st.trials.length = st.switches + 1 := by rw [hshape]; simp
  constructor
  · intro tr htr
    rw [hshape] at htr
    simp only [List.mem_map, List.mem_range] at htr
    obtain ⟨k, _, rfl⟩ := htr
    refine ⟨rfl, ?_⟩
    unfold trialAt mkTrial
    cases hak : a k <;> simp [hak]
  · rw [hlen, hshape]

/-- Claim C10, evaluation witness: a run whose first probe is absent
(with TCP fallback true) and whose second probe measures 10 ms against
threshold 80 produces exactly the two expected trial records in
order. -/
theorem C10_trial_invariants_witness :
    (∀ tr ∈ (⟨1, ("ip1"), [⟨("ip0"), none, false, true⟩,
        ⟨("ip1"), some 10, true, false⟩]⟩ : LoopState).trials,
      tr.icmp_ok = tr.avg_ms.isSome ∧ (tr.tcp_ok = true → tr.avg_ms = none)) ∧
    (⟨1, ("ip1"), [⟨("ip0"), none, false, true⟩,
        ⟨("ip1"), some 10, true, false⟩]⟩ : LoopState).trials =
      (List.range (⟨1, ("ip1"), [⟨("ip0"), none, false, true⟩,
        ⟨("ip1"), some 10, true, false⟩]⟩ : LoopState).trials.length).map
        (trialAt (fun i => if i = 0 then none else some 10) (fun _ => true)
          (fun _ => ("ip1")) ("ip0")) :=
  C10_trial_invariants 80 1 (fun i => if i = 0 then none else some 10) (fun _ => true)
    (fun _ => ("ip1")) ("ip0") true
    ⟨1, ("ip1"), [⟨("ip0"), none, false, true⟩, ⟨("ip1"), some 10, true, false⟩]⟩
    (by decide)

/-- Claim C2: for every sequence of probe outcomes the main loop
terminates — fuel m + 1 iterations always suffice, and any larger
iteration allowance yields the same result — and when no iteration
measures a mean latency strictly below the threshold, the run performs
exactly m (= max_switches) switches, records exactly m + 1 trials, and
main exits with code 1. -/
theorem C2_termination_exhaustion (θ : ℚ) (m : ℕ) (a : ℕ → Option ℚ) (t : ℕ → Bool)
    (p : ℕ → String) (env : String → String) (vas pips : List (String × Bool))
    (o : NetOracle) :
    (∀ (a2 : ℕ → Option ℚ) (t2 : ℕ → Bool) (p2 : ℕ → String) (ip0 : String) (fuel : ℕ),
      m + 1 ≤ fuel →
      (runLoop θ m a2 t2 p2 (m + 1) 0 ⟨0, ip0, []⟩).isSome ∧
      runLoop θ m a2 t2 p2 fuel 0 ⟨0, ip0, []⟩ =
        runLoop θ m a2 t2 p2 (m + 1) 0 ⟨0, ip0, []⟩) ∧
    ((∀ j, j ≤ m → belowB (a j) θ = false) → missingEnv env = [] → vas ≠ [] →
      pips ≠ [] →
      ∃ st : LoopState, mainRun env vas pips o θ m a t p = (1, st.trials) ∧
        st.switches = m ∧ st.trials.length = m + 1) := by
  constructor
  · intro a2 t2 p2 ip0 fuel hf
    obtain ⟨r, hr⟩ := Option.isSome_iff_exists.mp
      (runLoop_isSome θ m a2 t2 p2 (m + 1) 0 ⟨0, ip0, []⟩ (by simp) (by simp))
    refine ⟨by simp [hr], ?_⟩
    rw [hr]
    exact runLoop_mono θ m a2 t2 p2 (m + 1) fuel 0 _ r hr hf
  · intro hns henv hv hp
    obtain ⟨pid, b, st, hpick, hr, hmain⟩ := mainRun_good env vas pips o θ m a t p henv hv hp
    obtain ⟨st', hr', hsw, hlen⟩ := runLoop_exhaust θ m a t p hns (m + 1) 0
      ⟨0, (ensure_ephemeral_attached o pid).1.ip_address, []⟩ rfl (by omega) (by omega)
    rw [hr] at hr'
    simp only [Option.some.injEq, Prod.mk.injEq] at hr'
    obtain ⟨hb, hst⟩ := hr'
    subst hb
    refine ⟨st, ?_, ?_, ?_⟩
    · rw [hmain]; rfl
    · rw [hst]; exact hsw
    · rw [hst]
      simp only [List.length_nil] at hlen
      omega

/-- Claim C2, evaluation witness: with threshold 80, max_switches 2
and every probe absent, main exits 1 after exactly 2 switches and 3
trials. -/
theorem C2_termination_exhaustion_witness :
    ∃ st : LoopState, mainRun (fun _ => ("x")) [(("v1"), true)] [(("p1"), true)] netFix 80 2
        (fun _ => none) (fun _ => false) (fun _ => ("b")) = (1, st.trials) ∧
      st.switches = 2 ∧ st.trials.length = 3 :=
  (C2_termination_exhaustion 80 2 (fun _ => none) (fun _ => false) (fun _ => ("b"))
    (fun _ => ("x")) [(("v1"), true)] [(("p1"), true)] netFix).2
    (fun j _ => rfl) (by decide) (by decide) (by decide)

/-- Claim C3: the process exit code is 2 exactly on the fatal setup
paths — missing required environment variables, no VNIC attachment, no
private IP — each of which aborts before any probing (no trials); on
the good-setup path the exit code is 0 iff some recorded trial holds a
mean latency strictly below the threshold, and 1 iff none does (the
retry budget ran out without meeting the threshold). -/
theorem C3_exit_codes (env : String → String) (vas pips : List (String × Bool))
    (o : NetOracle) (θ : ℚ) (m : ℕ) (a : ℕ → Option ℚ) (t : ℕ → Bool)
    (p : ℕ → String) :
    (missingEnv env ≠ [] → mainRun env vas pips o θ m a t p = (2, [])) ∧
    (vas = [] → mainRun env vas pips o θ m a t p = (2, [])) ∧
    (pips = [] → mainRun env vas pips o θ m a t p = (2, [])) ∧
    (missingEnv env = [] → vas ≠ [] → pips ≠ [] →
      ((mainRun env vas pips o θ m a t p).1 = 0 ↔
        ∃ tr ∈ (mainRun env vas pips o θ m a t p).2, ∃ v, tr.avg_ms = some v ∧ v < θ) ∧
      ((mainRun env vas pips o θ m a t p).1 = 1 ↔
        ¬ ∃ tr ∈ (mainRun env vas pips o θ m a t p).2, ∃ v, tr.avg_ms = some v ∧ v < θ)) := by
  refine ⟨?_, ?_, ?_, ?_⟩
  · intro h
    simp [mainRun, h]
  · rintro rfl
    by_cases h : missingEnv env = [] <;> simp [mainRun, h, pick_primary_vnic]
  · rintro rfl
    by_cases h : missingEnv env = []
    · rcases vas with _ | ⟨v, vrest⟩ <;>
        simp [mainRun, h, pick_primary_vnic, pick_primary_private_ip]
    · simp [mainRun, h]
  · intro henv hv hp
    obtain ⟨pid, b, st, hpick, hr, hmain⟩ := mainRun_good env vas pips o θ m a t p henv hv hp
    have hiff := runLoop_success_iff_below θ m a t p (m + 1) 0 _ b st hr (by simp)
    have hconv : (∃ tr ∈ st.trials, ∃ v, tr.avg_ms = some v ∧ v < θ) ↔
        ∃ tr ∈ st.trials, belowB tr.avg_ms θ = true := by
      constructor
      · rintro ⟨tr, htr, hv⟩
        exact ⟨tr, htr, (belowB_iff _ _).mpr hv⟩
      · rintro ⟨tr, htr, hv⟩
        exact ⟨tr, htr, (belowB_iff _ _).mp hv⟩
    rw [hmain]
    cases b
    · have hnp : ¬ ∃ tr ∈ st.trials, ∃ v, tr.avg_ms = some v ∧ v < θ := by
        intro hP
        simpa using hiff.mpr (hconv.mp hP)
      simp [hnp]
    · have hP : ∃ tr ∈ st.trials, ∃ v, tr.avg_ms = some v ∧ v < θ :=
        hconv.mpr (hiff.mp rfl)
      simp [hP]

/-- Claim C3, evaluation witness: on the good-setup path with
threshold 80 and a first probe of 45 ms, the exit code is 0, matching
the recorded below-threshold trial. -/
theorem C3_exit_codes_witness :
    ((mainRun (fun _ => ("x")) [(("v1"), true)] [(("p1"), true)] netFix 80 5
        (fun _ => some 45) (fun _ => false) (fun _ => ("b"))).1 = 0 ↔
      ∃ tr ∈ (mainRun (fun _ => ("x")) [(("v1"), true)] [(("p1"), true)] netFix 80 5
        (fun _ => some 45) (fun _ => false) (fun _ => ("b"))).2,
        ∃ v, tr.avg_ms = some v ∧ v < 80) ∧
    ((mainRun (fun _ => ("x")) [(("v1"), true)] [(("p1"), true)] netFix 80 5
        (fun _ => some 45) (fun _ => false) (fun _ => ("b"))).1 = 1 ↔
      ¬ ∃ tr ∈ (mainRun (fun _ => ("x")) [(("v1"), true)] [(("p1"), true)] netFix 80 5
        (fun _ => some 45) (fun _ => false) (fun _ => ("b"))).2,
        ∃ v, tr.avg_ms = some v ∧ v < 80) :=
  (C3_exit_codes (fun _ => ("x")) [(("v1"), true)] [(("p1"), true)] netFix 80 5
    (fun _ => some 45) (fun _ => false) (fun _ => ("b"))).2.2.2
    (by decide) (by decide) (by decide)

/-- Claim C4: ensure_ephemeral_attached is idempotent — when a binding
already exists and its lifetime is EPHEMERAL, it returns that binding
unchanged after the single lookup, issuing no unbind, create, delete
or poll call; consequently a second call that still sees that binding
returns it unchanged again. -/
theorem C4_ensure_idempotent (o : NetOracle) (pid : String) (obj : PublicIp)
    (h : o.byPrivate = some obj) (hE : obj.lifetime = "EPHEMERAL") :
    ensure_ephemeral_attached o pid = (obj, [ApiCall.getByPrivate pid]) ∧
    (∀ c ∈ (ensure_ephemeral_attached o pid).2,
      isMutatingCall c = false ∧ isPollCall c = false) ∧
    (∀ o' : NetOracle, o'.byPrivate = some ((ensure_ephemeral_attached o pid).1) →
      ensure_ephemeral_attached o' pid =
        ((ensure_ephemeral_attached o pid).1, [ApiCall.getByPrivate pid])) := by
  have h1 : ensure_ephemeral_attached o pid = (obj, [ApiCall.getByPrivate pid]) := by
    rw [ensure_ephemeral_attached.eq_def, h]
    simp [hE]
  refine ⟨h1, ?_, ?_⟩
  · rw [h1]
    intro c hc
    simp only [List.mem_singleton] at hc
    subst hc
    exact ⟨rfl, rfl⟩
  · intro o' ho'
    rw [h1] at ho' ⊢
    rw [ensure_ephemeral_attached.eq_def, ho']
    simp [hE]

/-- Claim C4, evaluation witness: with an existing EPHEMERAL binding
the operation returns it unchanged after one read-only lookup. -/
theorem C4_ensure_idempotent_witness :
    ensure_ephemeral_attached ⟨some pubE, pubN, fun _ => pubN⟩ ("pip-1") =
      (pubE, [ApiCall.getByPrivate ("pip-1")]) :=
  (C4_ensure_idempotent ⟨some pubE, pubN, fun _ => pubN⟩ ("pip-1") pubE rfl rfl).1

/-- Claim C5: the program never deletes a RESERVED public address —
ensure_ephemeral_attached issues no delete call at all; in
switch_ephemeral_ip every delete call targets the old binding and only
when its lifetime is EPHEMERAL; a RESERVED old binding is only unbound
(update with private_ip_id=None) in both operations, so a pre-existing
RESERVED address survives the run. -/
theorem C5_reserved_never_deleted (o : NetOracle) (so : SwitchOracle)
    (pid pid2 : String) (old : Option PublicIp) (b : ℕ) :
    (∀ x, ApiCall.deletePublic x ∉ (ensure_ephemeral_attached o pid).2) ∧
    (∀ x, ApiCall.deletePublic x ∈ (switch_ephemeral_ip so pid2 old b).2 →
      ∃ oldObj, old = some oldObj ∧ oldObj.lifetime = "EPHEMERAL" ∧ x = oldObj.id) ∧
    (∀ oldObj, old = some oldObj → oldObj.lifetime = "RESERVED" →
      ApiCall.updateUnbind oldObj.id ∈ (switch_ephemeral_ip so pid2 old b).2 ∧
      ∀ x, ApiCall.deletePublic x ∉ (switch_ephemeral_ip so pid2 old b).2) ∧
    (∀ obj, o.byPrivate = some obj → obj.lifetime = "RESERVED" →
      ApiCall.updateUnbind obj.id ∈ (ensure_ephemeral_attached o pid).2) := by
  refine ⟨ensure_no_delete o pid, switch_delete_mem so pid2 old b, ?_, ?_⟩
  · intro oldObj hold hR
    subst hold
    refine ⟨switch_reserved_unbind so pid2 oldObj b hR, ?_⟩
    intro x hx
    obtain ⟨obj2, heq, hE, _⟩ := switch_delete_mem so pid2 (some oldObj) b x hx
    injection heq with heq'
    subst heq'
    rw [hR] at hE
    exact absurd hE (by decide)
  · intro obj hob hR
    rw [ensure_ephemeral_attached.eq_def, hob]
    have hE : ¬ obj.lifetime = "EPHEMERAL" := by rw [hR]; decide
    simp [if_neg hE, if_pos hR]

/-- Claim C5, evaluation witness: switching away from a RESERVED
binding unbinds it and never issues a delete. -/
theorem C5_reserved_never_deleted_witness :
    ApiCall.updateUnbind pubR.id ∈
      (switch_ephemeral_ip ⟨false, Except.ok pubN, fun _ => pubN⟩ ("pip-1")
        (some pubR) 2).2 ∧
    ∀ x, ApiCall.deletePublic x ∉
      (switch_ephemeral_ip ⟨false, Except.ok pubN, fun _ => pubN⟩ ("pip-1")
        (some pubR) 2).2 :=
  (C5_reserved_never_deleted netFix ⟨false, Except.ok pubN, fun _ => pubN⟩
    ("pip-0") ("pip-1") (some pubR) 2).2.2.1 pubR rfl rfl

/-- Claim C8: a cloud-API service error raised by the delete/unbind
step of switch_ephemeral_ip is caught, logged and swallowed — the
oracle flag recording it does not change the result at all — and when
the subsequent create succeeds the switch still creates a fresh
EPHEMERAL binding, polls it, and returns the polled binding. -/
theorem C8_cleanup_error_swallowed (so : SwitchOracle) (pid : String) (old : PublicIp)
    (b : ℕ) (n : PublicIp) (hcr : so.createResult = Except.ok n) :
    switch_ephemeral_ip so pid (some old) b =
      switch_ephemeral_ip ⟨true, so.createResult, so.polls⟩ pid (some old) b ∧
    ∃ tr, switch_ephemeral_ip so pid (some old) b =
        (Except.ok (wait_assigned so.polls n.id 20).1, tr) ∧
      ApiCall.createPublic pid ∈ tr ∧ ApiCall.getPublic n.id ∈ tr := by
  refine ⟨rfl, ?_⟩
  rw [switch_ok so pid (some old) b n hcr]
  refine ⟨_, rfl, ?_, ?_⟩
  · simp
  · simp only [wait_assigned, List.mem_append, List.mem_cons]
    right; right
    exact waitLoop_get_mem so.polls n.id 20 0

/-- Claim C8, evaluation witness: with the cleanup step reported as
raising a service error, the switch still returns the freshly created,
polled binding, with the create and poll calls in its trace. -/
theorem C8_cleanup_error_swallowed_witness :
    ∃ tr, switch_ephemeral_ip ⟨true, Except.ok pubN, fun _ => pubN⟩ ("pip-1")
        (some pubE) 3 =
        (Except.ok (wait_assigned (fun _ => pubN) pubN.id 20).1, tr) ∧
      ApiCall.createPublic ("pip-1") ∈ tr ∧ ApiCall.getPublic pubN.id ∈ tr :=
  (C8_cleanup_error_swallowed ⟨true, Except.ok pubN, fun _ => pubN⟩ ("pip-1")
    pubE 3 pubN rfl).2

/-- Claim C9: wait_assigned performs at most tries + 1 reads, all of
them get_public_ip polls; it returns the first observed binding whose
lifecycle_state is ASSIGNED; and when the attempt bound is exhausted
without observing ASSIGNED it performs one final read and returns that
binding in whatever state it is, without raising — so the returned
binding is not necessarily ASSIGNED. -/
theorem C9_wait_assigned (polls : ℕ → PublicIp) (pubId : String) (tries : ℕ) :
    (wait_assigned polls pubId tries).2.length ≤ tries + 1 ∧
    (∀ c ∈ (wait_assigned polls pubId tries).2, c = ApiCall.getPublic pubId) ∧
    (∀ i, i < tries → (∀ j, j < i → (polls j).lifecycle_state ≠ "ASSIGNED") →
      (polls i).lifecycle_state = "ASSIGNED" →
      (wait_assigned polls pubId tries).1 = polls i) ∧
    ((∀ i, i < tries → (polls i).lifecycle_state ≠ "ASSIGNED") →
      (wait_assigned polls pubId tries).1 = polls tries) := by
  refine ⟨waitLoop_len polls pubId tries 0,
    fun c hc => waitLoop_trace_get polls pubId tries 0 c hc, ?_, ?_⟩
  · intro i hi hmin hA
    have := waitLoop_find polls pubId tries 0 i hi
      (fun j hj => by simpa using hmin j hj) (by simpa using hA)
    simpa [wait_assigned] using this
  · intro hnone
    have := waitLoop_exhaust polls pubId tries 0 (fun j hj => by simpa using hnone j hj)
    simpa [wait_assigned] using this

/-- Claim C9, evaluation witness: with three attempts, a stream that
becomes ASSIGNED at the second read returns that read; a stream that
never becomes ASSIGNED returns the final extra read, still
PROVISIONING. -/
theorem C9_wait_assigned_witness :
    (wait_assigned (fun k => if k = 1 then pubN else pubP) ("pub-new") 3).1 = pubN ∧
    (wait_assigned (fun _ => pubP) ("pub-new") 3).1 = pubP :=
  ⟨(C9_wait_assigned (fun k => if k = 1 then pubN else pubP) ("pub-new") 3).2.2.1 1
      (by decide)
      (fun j hj => by
        have hj0 : j = 0 := by omega
        subst hj0
        decide)
      (by decide),
    (C9_wait_assigned (fun _ => pubP) ("pub-new") 3).2.2.2 (fun i _ => by decide)⟩

/-- Claim C7 (as amended): measure never raises; it returns the
float() value of the capture of the first summary-statistics pattern
whenever that pattern matches the combined stdout-newline-stderr text
(absent when that capture does not parse as a float), falls back to
the second pattern's capture only when the first pattern does not
match, and returns absent when neither matches or when running the
subprocess raises. -/
theorem C7_measure_patterns :
    measure_latency none = none ∧
    ∀ so se : String,
      (∀ c, reSearch matchPat1At (so ++ "\n" ++ se).data = some c →
        measure_latency (some (so, se)) = pyFloatOfDigitsDots c) ∧
      (reSearch matchPat1At (so ++ "\n" ++ se).data = none →
        ∀ c, reSearch matchPat2At (so ++ "\n" ++ se).data = some c →
          measure_latency (some (so, se)) = pyFloatOfDigitsDots c) ∧
      (reSearch matchPat1At (so ++ "\n" ++ se).data = none →
        reSearch matchPat2At (so ++ "\n" ++ se).data = none →
          measure_latency (some (so, se)) = none) := by
  refine ⟨rfl, fun so se => ⟨?_, ?_, ?_⟩⟩
  · intro c h1
    simp only [measure_latency, h1]
  · intro h1 c h2
    simp only [measure_latency, h1, h2]
  · intro h1 h2
    simp only [measure_latency, h1, h2]

/-- Claim C7, counterexample to the claim as stated: on the combined
output of stdout "= 1/2..3/" and empty stderr, the first pattern
matches with capture "2..3", yet measure returns absent (float("2..3")
raises ValueError, caught by the same handler) — not the captured mean
value, although the first pattern matched. -/
theorem C7_measure_patterns_counterexample :
    reSearch matchPat1At (("= 1/2..3/" ++ "\n" ++ "").data) = some (("2..3").data) ∧
    pyFloatOfDigitsDots (("2..3").data) = none ∧
    measure_latency (some (("= 1/2..3/"), (""))) = none := by
  refine ⟨by decide, by decide, by decide⟩

/-- Claim C7, evaluation witness: a Linux-style ping summary is parsed
by the first pattern to 20.5 ms, and an avg=12.5 style summary, which
the first pattern does not match, is parsed by the fallback pattern to
12.5 ms. -/
theorem C7_measure_patterns_witness :
    measure_latency (some (("rtt min/avg/max/mdev = 10.0/20.5/30.0/1.0 ms"), (""))) =
      some ((41 : ℚ) / 2) ∧
    measure_latency (some (("ping statistics: avg=12.5 ms"), (""))) =
      some ((25 : ℚ) / 2) := by
  constructor
  · have h := (C7_measure_patterns.2 ("rtt min/avg/max/mdev = 10.0/20.5/30.0/1.0 ms")
      ("")).1 (("20.5").data) (by decide)
    rw [h]
    have hv : pyFloatOfDigitsDots (("20.5").data) =
        some (((20 : ℕ) : ℚ) + ((5 : ℕ) : ℚ) / 10 ^ 1) := rfl
    rw [hv]
    norm_num
  · have h := (C7_measure_patterns.2 ("ping statistics: avg=12.5 ms") ("")).2.1
      (by decide) (("12.5").data) (by decide)
    rw [h]
    have hv : pyFloatOfDigitsDots (("12.5").data) =
        some (((12 : ℕ) : ℚ) + ((5 : ℕ) : ℚ) / 10 ^ 1) := rfl
    rw [hv]
    norm_num

end MonitorLatency
